import Mathlib

/-!
Shallow embedding of `src/metadata_generator.py` (`build_metadata`).

The script reads a JSONL manifest, and for each line: parses the JSON
record, clones the repository (`subprocess.run(['git','clone',url,target])`),
loads `pyproject.toml` from the checkout root when it exists (warning
otherwise), merges manifest fields with the `project` table using fixed
defaults, writes a per-library JSON file named by the lowercased
`library_id`, and appends an index entry; after the loop it writes the
accumulated index and prints a summary.

The embedding represents a parsed manifest line, the state of the cloned
tree (whether `pyproject.toml` exists and what its `project` table holds),
and the run as a list of observable effects (directory creation, external
process invocations, prints, file writes) paired with normal or
exceptional termination.
-/

/-- One manifest line after `json.loads`, holding the fields the script
reads: `library_id`, `path`, `url` (required lookups) and `git_ref`
(optional, read with `entry.get('git_ref', 'main')`). -/
structure Entry where
  library_id : String
  path : String
  url : String
  git_ref : Option String
  deriving DecidableEq, Repr

/-- The result of `json.loads` on one raw manifest line: either a parse
error (`json.loads` raises) or a well-formed record. -/
inductive ParsedLine where
  | malformed : ParsedLine
  | entry : Entry → ParsedLine
  deriving DecidableEq, Repr

/-- The `project` table of a `pyproject.toml`, with each field the script
looks up independently optional, mirroring `proj_data.get(key, default)`. -/
structure ProjectTable where
  version : Option String
  description : Option String
  authors : Option (List String)
  license : Option String
  readme : Option String
  repository : Option String
  keywords : Option (List String)
  dependencies : Option (List String)
  deriving DecidableEq, Repr

/-- State of `pyproject.toml` at a checkout root: absent, or present with an
optional `project` table (`toml.load(pyproj).get('project', {})`). -/
inductive PyprojectFile where
  | absent : PyprojectFile
  | present : Option ProjectTable → PyprojectFile
  deriving DecidableEq, Repr

/-- The environment the clones provide: for each target directory, the
state of `pyproject.toml` inside the checked-out tree. -/
def World : Type := String → PyprojectFile

/-- The keyword arguments of `build_metadata` that shape the outputs. -/
structure Config where
  output_index : String
  metadata_dir : String
  clone_root : String
  deriving DecidableEq, Repr

/-- The defaults of `build_metadata`. -/
def defaultConfig : Config :=
  { output_index := "index.json", metadata_dir := "metadata", clone_root := ".clones" }

/-- The merged record written to each per-library JSON file. -/
structure LibraryMetadata where
  library_id : String
  path : String
  url : String
  git_ref : String
  version : String
  description : String
  authors : List String
  license : String
  readme : Option String
  repository : Option String
  keywords : List String
  requirements : List String
  deriving DecidableEq, Repr

/-- One element of the accumulated `index` list. -/
structure IndexEntry where
  library_id : String
  path : String
  metadata : String
  deriving DecidableEq, Repr

/-- Content of a file the script writes: a per-library metadata record
(`json.dump(metadata, ...)`) or the index list (`json.dump(index, ...)`).
`json.dump` with `indent=2` is deterministic, so byte content is a
function of this value. -/
inductive FileContent where
  | lib : LibraryMetadata → FileContent
  | idx : List IndexEntry → FileContent
  deriving DecidableEq, Repr

/-- An observable effect of the run, in order of occurrence. -/
inductive Effect where
  | mkdir : String → Effect
  | subprocessRun : List String → Effect
  | print : String → Effect
  | writeFile : String → FileContent → Effect
  deriving DecidableEq, Repr

/-- Model of `str.lower()`: per-character lowercasing of the string. -/
def strLower (s : String) : String :=
  String.mk (s.data.map Char.toLower)

/-- Checkout directory, `target = clone_dir / lib_id.lower()`. -/
def targetOf (cfg : Config) (e : Entry) : String :=
  cfg.clone_root ++ "/" ++ strLower e.library_id

/-- Per-library output path, the lowercased id under the metadata dir. -/
def outFileOf (cfg : Config) (e : Entry) : String :=
  cfg.metadata_dir ++ "/" ++ strLower e.library_id ++ ".json"

/-- The empty mapping: what the per-field lookups run against when
`pyproject.toml` is absent or has no `project` table. -/
def emptyProjectTable : ProjectTable :=
  { version := none, description := none, authors := none, license := none,
    readme := none, repository := none, keywords := none, dependencies := none }

/-- Value of `proj_data` after step 3 of the loop body. -/
def projDataOf : PyprojectFile → ProjectTable
  | PyprojectFile.absent => emptyProjectTable
  | PyprojectFile.present none => emptyProjectTable
  | PyprojectFile.present (some t) => t

/-- The `metadata` dict built in the loop body: manifest fields plus
project fields with their `.get(..., default)` fallbacks. -/
def metadataOf (e : Entry) (pd : ProjectTable) : LibraryMetadata :=
  { library_id := e.library_id
    path := e.path
    url := e.url
    git_ref := e.git_ref.getD "main"
    version := pd.version.getD "N/A"
    description := pd.description.getD "No description available."
    authors := pd.authors.getD []
    license := pd.license.getD "N/A"
    readme := pd.readme
    repository := pd.repository
    keywords := pd.keywords.getD []
    requirements := pd.dependencies.getD [] }

/-- The element appended to `index` for one entry. -/
def indexEntryOf (cfg : Config) (e : Entry) : IndexEntry :=
  { library_id := e.library_id, path := e.path, metadata := outFileOf cfg e }

/-- Warning line printed when `pyproject.toml` is missing. -/
def warnMsg (lib_id : String) : String :=
  "⚠️  " ++ lib_id ++ ": pyproject.toml not found, filling N/A"

/-- The final summary line printed after the index is written. -/
def summaryMsg (cfg : Config) (n : Nat) : String :=
  "Generated " ++ toString n ++ " metadata files in \x27" ++ cfg.metadata_dir ++
    "\x27 and wrote \x27" ++ cfg.output_index ++ "\x27"

/-- The effects of one iteration of the loop body on a well-formed entry:
the clone call, the warning when `pyproject.toml` is missing, and the
per-library file write. -/
def entryEffects (w : World) (cfg : Config) (e : Entry) : List Effect :=
  Effect.subprocessRun ["git", "clone", e.url, targetOf cfg e] ::
    (match w (targetOf cfg e) with
      | PyprojectFile.absent => [Effect.print (warnMsg e.library_id)]
      | PyprojectFile.present _ => []) ++
    [Effect.writeFile (outFileOf cfg e)
      (FileContent.lib (metadataOf e (projDataOf (w (targetOf cfg e)))))]

/-- The manifest loop: effects so far, and either the accumulated index
list or the exception raised by `json.loads` on a malformed line (which
stops the loop, keeping earlier effects). -/
def runLines (w : World) (cfg : Config) : List ParsedLine → List Effect × Except Unit (List IndexEntry)
  | [] => ([], Except.ok [])
  | ParsedLine.malformed :: _ => ([], Except.error ())
  | ParsedLine.entry e :: rest =>
    match runLines w cfg rest with
    | (effs, Except.ok ix) =>
      (entryEffects w cfg e ++ effs, Except.ok (indexEntryOf cfg e :: ix))
    | (effs, Except.error u) =>
      (entryEffects w cfg e ++ effs, Except.error u)

/-- The whole run of `build_metadata`: make the metadata directory, run the loop, then (on
normal completion only) write the index file and print the summary.  An
exception propagates: effects performed before it remain, nothing after
it happens. -/
def build_metadata (w : World) (cfg : Config) (lines : List ParsedLine) :
    List Effect × Except Unit Unit :=
  match runLines w cfg lines with
  | (effs, Except.ok ix) =>
    (Effect.mkdir cfg.metadata_dir :: effs ++
      [Effect.writeFile cfg.output_index (FileContent.idx ix),
       Effect.print (summaryMsg cfg ix.length)], Except.ok ())
  | (effs, Except.error u) =>
    (Effect.mkdir cfg.metadata_dir :: effs, Except.error u)

/-- The per-library file writes among a list of effects, in order. -/
def libWrites (es : List Effect) : List (String × LibraryMetadata) :=
  es.filterMap fun eff =>
    match eff with
    | Effect.writeFile p (FileContent.lib m) => some (p, m)
    | _ => none

/-- The index-file writes among a list of effects, in order. -/
def indexWrites (es : List Effect) : List (List IndexEntry) :=
  es.filterMap fun eff =>
    match eff with
    | Effect.writeFile _ (FileContent.idx xs) => some xs
    | _ => none

/-- The external process invocations among a list of effects, in order. -/
def subprocessCalls (es : List Effect) : List (List String) :=
  es.filterMap fun eff =>
    match eff with
    | Effect.subprocessRun argv => some argv
    | _ => none

/-- A file system keyed by path; `none` means the path holds no file. -/
def FS : Type := String → Option FileContent

/-- Applying one effect to the file system: a write overwrites the file
at its path, every other effect leaves the file system unchanged. -/
def applyEffect (fs : FS) : Effect → FS
  | Effect.writeFile p c => fun q => if q = p then some c else fs q
  | _ => fs

/-- Applying a run of effects to the file system, in order. -/
def applyEffects (fs : FS) (es : List Effect) : FS :=
  es.foldl applyEffect fs

/-- The writes of a run, path by path: the content of the last write to
the path, if any. -/
def lastWrite : List Effect → String → Option FileContent
  | [], _ => none
  | eff :: es, q =>
    match lastWrite es q with
    | some c => some c
    | none =>
      match eff with
      | Effect.writeFile p c => if q = p then some c else none
      | _ => none

lemma libWrites_append (a b : List Effect) :
    libWrites (a ++ b) = libWrites a ++ libWrites b := by
  simp [libWrites, List.filterMap_append]

lemma indexWrites_append (a b : List Effect) :
    indexWrites (a ++ b) = indexWrites a ++ indexWrites b := by
  simp [indexWrites, List.filterMap_append]

lemma subprocessCalls_append (a b : List Effect) :
    subprocessCalls (a ++ b) = subprocessCalls a ++ subprocessCalls b := by
  simp [subprocessCalls, List.filterMap_append]

lemma libWrites_entryEffects (w : World) (cfg : Config) (e : Entry) :
    libWrites (entryEffects w cfg e) =
      [(outFileOf cfg e, metadataOf e (projDataOf (w (targetOf cfg e))))] := by
  cases h : w (targetOf cfg e) <;> simp [entryEffects, libWrites, h]

lemma indexWrites_entryEffects (w : World) (cfg : Config) (e : Entry) :
    indexWrites (entryEffects w cfg e) = [] := by
  cases h : w (targetOf cfg e) <;> simp [entryEffects, indexWrites, h]

lemma subprocessCalls_entryEffects (w : World) (cfg : Config) (e : Entry) :
    subprocessCalls (entryEffects w cfg e) = [["git", "clone", e.url, targetOf cfg e]] := by
  cases h : w (targetOf cfg e) <;> simp [entryEffects, subprocessCalls, h]

lemma runLines_entries (w : World) (cfg : Config) (ents : List Entry) :
    runLines w cfg (ents.map ParsedLine.entry) =
      ((ents.map (entryEffects w cfg)).flatten,
        Except.ok (ents.map (indexEntryOf cfg))) := by
  induction ents with
  | nil => rfl
  | cons e rest ih => simp [runLines, ih]

lemma runLines_malformed (w : World) (cfg : Config) (pre : List Entry)
    (post : List ParsedLine) :
    runLines w cfg (pre.map ParsedLine.entry ++ ParsedLine.malformed :: post) =
      ((pre.map (entryEffects w cfg)).flatten, Except.error ()) := by
  induction pre with
  | nil => rfl
  | cons e rest ih => simp [runLines, ih]

lemma libWrites_flatten_entryEffects (w : World) (cfg : Config) (ents : List Entry) :
    libWrites (ents.map (entryEffects w cfg)).flatten =
      ents.map (fun e =>
        (outFileOf cfg e, metadataOf e (projDataOf (w (targetOf cfg e))))) := by
  induction ents with
  | nil => rfl
  | cons e rest ih =>
    simp only [List.map_cons, List.flatten_cons, libWrites_append, ih,
      libWrites_entryEffects, List.singleton_append]

lemma indexWrites_flatten_entryEffects (w : World) (cfg : Config) (ents : List Entry) :
    indexWrites (ents.map (entryEffects w cfg)).flatten = [] := by
  induction ents with
  | nil => rfl
  | cons e rest ih =>
    simp only [List.map_cons, List.flatten_cons, indexWrites_append, ih,
      indexWrites_entryEffects, List.nil_append]

lemma applyEffects_eq_lastWrite (es : List Effect) : ∀ (fs : FS) (q : String),
    applyEffects fs es q =
      match lastWrite es q with
      | some c => some c
      | none => fs q := by
  induction es with
  | nil => intro fs q; rfl
  | cons eff es ih =>
    intro fs q
    show applyEffects (applyEffect fs eff) es q = _
    rw [ih]
    cases h : lastWrite es q with
    | some c => simp [lastWrite, h]
    | none =>
      cases eff with
      | writeFile p c =>
        simp only [lastWrite, h, applyEffect]
        by_cases hq : q = p <;> simp [hq]
      | mkdir d => simp [lastWrite, h, applyEffect]
      | subprocessRun argv => simp [lastWrite, h, applyEffect]
      | print s => simp [lastWrite, h, applyEffect]

lemma applyEffects_idem (es : List Effect) (fs : FS) :
    applyEffects (applyEffects fs es) es = applyEffects fs es := by
  funext q
  rw [applyEffects_eq_lastWrite, applyEffects_eq_lastWrite]
  cases h : lastWrite es q with
  | some c => simp [h]
  | none => simp [h, applyEffects_eq_lastWrite]

lemma libWrites_cons (eff : Effect) (es : List Effect) :
    libWrites (eff :: es) =
      (match eff with
        | Effect.writeFile p (FileContent.lib m) => [(p, m)]
        | _ => []) ++ libWrites es := by
  cases eff with
  | writeFile p c => cases c <;> simp [libWrites, List.filterMap_cons]
  | mkdir d => simp [libWrites, List.filterMap_cons]
  | subprocessRun argv => simp [libWrites, List.filterMap_cons]
  | print s => simp [libWrites, List.filterMap_cons]

lemma indexWrites_cons (eff : Effect) (es : List Effect) :
    indexWrites (eff :: es) =
      (match eff with
        | Effect.writeFile _ (FileContent.idx xs) => [xs]
        | _ => []) ++ indexWrites es := by
  cases eff with
  | writeFile p c => cases c <;> simp [indexWrites, List.filterMap_cons]
  | mkdir d => simp [indexWrites, List.filterMap_cons]
  | subprocessRun argv => simp [indexWrites, List.filterMap_cons]
  | print s => simp [indexWrites, List.filterMap_cons]

lemma subprocessCalls_cons (eff : Effect) (es : List Effect) :
    subprocessCalls (eff :: es) =
      (match eff with
        | Effect.subprocessRun argv => [argv]
        | _ => []) ++ subprocessCalls es := by
  cases eff with
  | writeFile p c => cases c <;> simp [subprocessCalls, List.filterMap_cons]
  | mkdir d => simp [subprocessCalls, List.filterMap_cons]
  | subprocessRun argv => simp [subprocessCalls, List.filterMap_cons]
  | print s => simp [subprocessCalls, List.filterMap_cons]

lemma libWrites_writeIdx_print (p : String) (xs : List IndexEntry) (s : String) :
    libWrites [Effect.writeFile p (FileContent.idx xs), Effect.print s] = [] := rfl

lemma indexWrites_writeIdx_print (p : String) (xs : List IndexEntry) (s : String) :
    indexWrites [Effect.writeFile p (FileContent.idx xs), Effect.print s] = [xs] := rfl

lemma build_metadata_entries (w : World) (cfg : Config) (ents : List Entry) :
    build_metadata w cfg (ents.map ParsedLine.entry) =
      (Effect.mkdir cfg.metadata_dir :: (ents.map (entryEffects w cfg)).flatten ++
        [Effect.writeFile cfg.output_index (FileContent.idx (ents.map (indexEntryOf cfg))),
         Effect.print (summaryMsg cfg (ents.map (indexEntryOf cfg)).length)],
       Except.ok ()) := by
  simp [build_metadata, runLines_entries]

/-- A concrete manifest entry without a revision reference. -/
def exEntryNoRef : Entry :=
  { library_id := "Foo", path := "libs/foo", url := "https://example/foo.git",
    git_ref := none }

/-- A concrete manifest entry carrying an explicit revision reference. -/
def exEntryRef : Entry :=
  { library_id := "Foo", path := "libs/foo", url := "https://example/foo.git",
    git_ref := some "v1.0.0" }

/-- A concrete entry whose id differs from `exEntryNoRef` only in case. -/
def exEntryUpper : Entry :=
  { library_id := "fOO", path := "libs/foo2", url := "https://example/foo2.git",
    git_ref := none }

/-- A world in which every checkout lacks `pyproject.toml`. -/
def exWorldAbsent : World := fun _ => PyprojectFile.absent

/-- C1: on a manifest whose lines are all well-formed records, the run
completes normally, writes exactly one per-library metadata file per
manifest line in manifest order, writes the index exactly once with
exactly one entry per manifest line in manifest order, and the written
index list has the same length as the manifest. -/
theorem C1_one_file_and_one_index_entry_per_line (w : World) (cfg : Config)
    (ents : List Entry) :
    (build_metadata w cfg (ents.map ParsedLine.entry)).2 = Except.ok () ∧
    libWrites (build_metadata w cfg (ents.map ParsedLine.entry)).1 =
      ents.map (fun e =>
        (outFileOf cfg e, metadataOf e (projDataOf (w (targetOf cfg e))))) ∧
    indexWrites (build_metadata w cfg (ents.map ParsedLine.entry)).1 =
      [ents.map (indexEntryOf cfg)] ∧
    (ents.map (indexEntryOf cfg)).length = ents.length := by
  rw [build_metadata_entries]
  refine ⟨rfl, ?_, ?_, by simp⟩
  · dsimp only
    rw [libWrites_append, libWrites_cons, libWrites_flatten_entryEffects,
      libWrites_writeIdx_print]
    simp
  · dsimp only
    rw [indexWrites_append, indexWrites_cons, indexWrites_flatten_entryEffects,
      indexWrites_writeIdx_print]
    simp

/-- C2 (code bug): the claim says the checkout call applies the entry's
`git_ref`, but the script invokes `git clone` with only the url and the
target directory.  At an entry whose `git_ref` is `"v1.0.0"`, the only
external call of the run is `["git", "clone", url, target]`, and the
revision string appears nowhere in it. -/
theorem C2_clone_call_omits_git_ref :
    subprocessCalls (build_metadata exWorldAbsent defaultConfig
        [ParsedLine.entry exEntryRef]).1 =
      [["git", "clone", "https://example/foo.git", ".clones/foo"]] ∧
    ¬ ("v1.0.0" ∈ ["git", "clone", "https://example/foo.git", ".clones/foo"]) := by
  constructor
  · rfl
  · decide

/-- C3: when the checked-out tree lacks `pyproject.toml`, the written
metadata record carries the fixed defaults for every project field and
the manifest fields (with the `"main"` fallback for an omitted
`git_ref`) unchanged. -/
theorem C3_absent_pyproject_all_defaults (w : World) (cfg : Config) (e : Entry)
    (h : w (targetOf cfg e) = PyprojectFile.absent) :
    libWrites (entryEffects w cfg e) =
      [(outFileOf cfg e,
        { library_id := e.library_id, path := e.path, url := e.url,
          git_ref := e.git_ref.getD "main",
          version := "N/A", description := "No description available.",
          authors := [], license := "N/A", readme := none, repository := none,
          keywords := [], requirements := [] })] := by
  rw [libWrites_entryEffects, h]
  rfl

/-- Witness for C3 at a concrete entry and world. -/
theorem C3_witness :
    libWrites (entryEffects exWorldAbsent defaultConfig exEntryNoRef) =
      [("metadata/foo.json",
        { library_id := "Foo", path := "libs/foo", url := "https://example/foo.git",
          git_ref := "main",
          version := "N/A", description := "No description available.",
          authors := [], license := "N/A", readme := none, repository := none,
          keywords := [], requirements := [] })] :=
  C3_absent_pyproject_all_defaults exWorldAbsent defaultConfig exEntryNoRef rfl

/-- C4: the `git_ref` field of the written metadata record is `"main"`
when the manifest line omits `git_ref`, and is the line's value unchanged
when the line provides one. -/
theorem C4_git_ref_default_and_preserved (e : Entry) (pd : ProjectTable) :
    (e.git_ref = none → (metadataOf e pd).git_ref = "main") ∧
    ∀ r, e.git_ref = some r → (metadataOf e pd).git_ref = r := by
  constructor
  · intro h
    simp [metadataOf, h]
  · intro r h
    simp [metadataOf, h]

/-- Witness for C4 at concrete entries with and without a `git_ref`. -/
theorem C4_witness :
    (metadataOf exEntryNoRef emptyProjectTable).git_ref = "main" ∧
    (metadataOf exEntryRef emptyProjectTable).git_ref = "v1.0.0" :=
  ⟨(C4_git_ref_default_and_preserved exEntryNoRef emptyProjectTable).1 rfl,
   (C4_git_ref_default_and_preserved exEntryRef emptyProjectTable).2 "v1.0.0" rfl⟩

/-- C5: the per-library file is written at
`metadata_dir / (lowercased library_id) . json`, whatever the casing in
the manifest, and two ids that agree after lowercasing yield the same
output filename. -/
theorem C5_output_filename_is_lowercased_id (w : World) (cfg : Config)
    (e1 e2 : Entry) :
    (libWrites (entryEffects w cfg e1)).map Prod.fst =
      [cfg.metadata_dir ++ "/" ++ strLower e1.library_id ++ ".json"] ∧
    (strLower e1.library_id = strLower e2.library_id →
      outFileOf cfg e1 = outFileOf cfg e2) := by
  constructor
  · rw [libWrites_entryEffects]
    rfl
  · intro h
    simp [outFileOf, h]

/-- Witness for C5: ids `"Foo"` and `"fOO"` differ only in case and map
to the same per-library filename. -/
theorem C5_witness :
    (libWrites (entryEffects exWorldAbsent defaultConfig exEntryNoRef)).map Prod.fst =
      ["metadata/foo.json"] ∧
    outFileOf defaultConfig exEntryNoRef = outFileOf defaultConfig exEntryUpper :=
  ⟨(C5_output_filename_is_lowercased_id exWorldAbsent defaultConfig
      exEntryNoRef exEntryUpper).1,
   (C5_output_filename_is_lowercased_id exWorldAbsent defaultConfig
      exEntryNoRef exEntryUpper).2 (by decide)⟩

/-- The lines printed by a run, in order. -/
def prints (es : List Effect) : List String :=
  es.filterMap fun eff =>
    match eff with
    | Effect.print s => some s
    | _ => none

lemma applyEffects_cons (fs : FS) (eff : Effect) (es : List Effect) :
    applyEffects fs (eff :: es) = applyEffects (applyEffect fs eff) es := rfl

lemma applyEffects_nil (fs : FS) : applyEffects fs [] = fs := rfl

lemma applyEffects_append (fs : FS) (a b : List Effect) :
    applyEffects fs (a ++ b) = applyEffects (applyEffects fs a) b := by
  simp [applyEffects, List.foldl_append]

lemma applyEffect_mkdir (fs : FS) (d : String) :
    applyEffect fs (Effect.mkdir d) = fs := rfl

lemma applyEffect_print (fs : FS) (s : String) :
    applyEffect fs (Effect.print s) = fs := rfl

lemma applyEffect_write (fs : FS) (p : String) (c : FileContent) (q : String) :
    applyEffect fs (Effect.writeFile p c) q = if q = p then some c else fs q := rfl

lemma applyEffects_entryEffects (w : World) (cfg : Config) (e : Entry) (fs : FS)
    (q : String) :
    applyEffects fs (entryEffects w cfg e) q =
      if q = outFileOf cfg e
      then some (FileContent.lib (metadataOf e (projDataOf (w (targetOf cfg e)))))
      else fs q := by
  cases h : w (targetOf cfg e) <;>
    simp [entryEffects, h, applyEffects, applyEffect]

/-- C6: a manifest line that is not valid JSON aborts the whole run: the
run terminates exceptionally, its only effects are the directory
creation and the iterations for the earlier well-formed lines — so
nothing is written for the malformed line or for any later line — and
the index file is never written. -/
theorem C6_malformed_line_aborts_run (w : World) (cfg : Config)
    (pre : List Entry) (post : List ParsedLine) :
    (build_metadata w cfg
        (pre.map ParsedLine.entry ++ ParsedLine.malformed :: post)).2 =
      Except.error () ∧
    (build_metadata w cfg
        (pre.map ParsedLine.entry ++ ParsedLine.malformed :: post)).1 =
      Effect.mkdir cfg.metadata_dir :: (pre.map (entryEffects w cfg)).flatten ∧
    indexWrites (build_metadata w cfg
        (pre.map ParsedLine.entry ++ ParsedLine.malformed :: post)).1 = [] := by
  have h := runLines_malformed w cfg pre post
  refine ⟨by simp [build_metadata, h], by simp [build_metadata, h], ?_⟩
  simp only [build_metadata, h]
  rw [indexWrites_cons, indexWrites_flatten_entryEffects]
  simp

/-- C7: when an entry's checkout lacks `pyproject.toml`, the run prints
the warning naming that library, and the run's termination status is
exactly that of the remaining lines: the missing file never aborts the
run. -/
theorem C7_missing_pyproject_warns_and_continues (w : World) (cfg : Config)
    (e : Entry) (rest : List ParsedLine)
    (h : w (targetOf cfg e) = PyprojectFile.absent) :
    Effect.print (warnMsg e.library_id) ∈
      (build_metadata w cfg (ParsedLine.entry e :: rest)).1 ∧
    (build_metadata w cfg (ParsedLine.entry e :: rest)).2 =
      (build_metadata w cfg rest).2 := by
  have hmem : Effect.print (warnMsg e.library_id) ∈ entryEffects w cfg e := by
    simp [entryEffects, h]
  rcases hr : runLines w cfg rest with ⟨effs, st⟩
  cases st with
  | ok ix =>
    exact ⟨by simp [build_metadata, runLines, hr, hmem],
           by simp [build_metadata, runLines, hr]⟩
  | error u =>
    exact ⟨by simp [build_metadata, runLines, hr, hmem],
           by simp [build_metadata, runLines, hr]⟩

/-- Witness for C7 at a concrete entry with no `pyproject.toml`. -/
theorem C7_witness :
    Effect.print (warnMsg exEntryNoRef.library_id) ∈
      (build_metadata exWorldAbsent defaultConfig
        [ParsedLine.entry exEntryNoRef]).1 ∧
    (build_metadata exWorldAbsent defaultConfig [ParsedLine.entry exEntryNoRef]).2 =
      (build_metadata exWorldAbsent defaultConfig []).2 :=
  C7_missing_pyproject_warns_and_continues exWorldAbsent defaultConfig
    exEntryNoRef [] rfl

/-- A second concrete entry carrying the same `library_id` as
`exEntryNoRef` but different content. -/
def exEntryDup : Entry :=
  { library_id := "Foo", path := "libs/foo-dup", url := "https://example/foo2.git",
    git_ref := some "dev" }

/-- A world in which every checkout has a `pyproject.toml` without a
`project` table. -/
def exWorldEmptyProj : World := fun _ => PyprojectFile.present none

/-- An initially empty file system. -/
def emptyFS : FS := fun _ => none

/-- C8: two manifest lines with the same `library_id` do not fail the
run: the two per-library writes target the same filename, the index gets
one entry per line (so two entries with that id, in manifest order), and
in the final file system the later line's record has overwritten the
earlier one's (the index path being a distinct file). -/
theorem C8_duplicate_id_overwrites_and_keeps_both_index_entries
    (w : World) (cfg : Config) (fs : FS) (e1 e2 : Entry)
    (hid : e1.library_id = e2.library_id)
    (hix : cfg.output_index ≠ outFileOf cfg e1) :
    (build_metadata w cfg [ParsedLine.entry e1, ParsedLine.entry e2]).2 =
      Except.ok () ∧
    outFileOf cfg e1 = outFileOf cfg e2 ∧
    indexWrites (build_metadata w cfg
        [ParsedLine.entry e1, ParsedLine.entry e2]).1 =
      [[indexEntryOf cfg e1, indexEntryOf cfg e2]] ∧
    applyEffects fs (build_metadata w cfg
        [ParsedLine.entry e1, ParsedLine.entry e2]).1 (outFileOf cfg e1) =
      some (FileContent.lib (metadataOf e2 (projDataOf (w (targetOf cfg e2))))) := by
  have hout : outFileOf cfg e1 = outFileOf cfg e2 := by
    simp [outFileOf, hid]
  have hb : build_metadata w cfg [ParsedLine.entry e1, ParsedLine.entry e2] =
      (Effect.mkdir cfg.metadata_dir ::
        (List.map (entryEffects w cfg) [e1, e2]).flatten ++
        [Effect.writeFile cfg.output_index
          (FileContent.idx (List.map (indexEntryOf cfg) [e1, e2])),
         Effect.print (summaryMsg cfg (List.map (indexEntryOf cfg) [e1, e2]).length)],
       Except.ok ()) := build_metadata_entries w cfg [e1, e2]
  refine ⟨?_, hout, ?_, ?_⟩
  · rw [hb]
  · rw [hb]
    dsimp only
    rw [indexWrites_append, indexWrites_cons, indexWrites_flatten_entryEffects,
      indexWrites_writeIdx_print]
    simp
  · rw [hb]
    dsimp only
    rw [applyEffects_append, applyEffects_cons, applyEffects_cons, applyEffects_nil,
      applyEffect_print, applyEffect_write, if_neg (fun hc => hix hc.symm),
      applyEffects_cons, applyEffect_mkdir]
    simp only [List.map_cons, List.map_nil, List.flatten_cons, List.flatten_nil,
      List.append_nil]
    rw [applyEffects_append, applyEffects_entryEffects, if_pos hout]

/-- Witness for C8 at two concrete entries sharing the id `"Foo"`. -/
theorem C8_witness :
    (build_metadata exWorldAbsent defaultConfig
        [ParsedLine.entry exEntryNoRef, ParsedLine.entry exEntryDup]).2 =
      Except.ok () ∧
    outFileOf defaultConfig exEntryNoRef = outFileOf defaultConfig exEntryDup ∧
    indexWrites (build_metadata exWorldAbsent defaultConfig
        [ParsedLine.entry exEntryNoRef, ParsedLine.entry exEntryDup]).1 =
      [[indexEntryOf defaultConfig exEntryNoRef,
        indexEntryOf defaultConfig exEntryDup]] ∧
    applyEffects emptyFS (build_metadata exWorldAbsent defaultConfig
        [ParsedLine.entry exEntryNoRef, ParsedLine.entry exEntryDup]).1
        (outFileOf defaultConfig exEntryNoRef) =
      some (FileContent.lib (metadataOf exEntryDup
        (projDataOf (exWorldAbsent (targetOf defaultConfig exEntryDup))))) :=
  C8_duplicate_id_overwrites_and_keeps_both_index_entries exWorldAbsent
    defaultConfig emptyFS exEntryNoRef exEntryDup rfl (by decide)

/-- C9: re-running the pipeline on the same manifest against the same
upstream state overwrites the previous outputs with identical content:
applying the run's effects a second time leaves every file exactly as
after the first run. -/
theorem C9_rerun_is_idempotent (w : World) (cfg : Config)
    (lines : List ParsedLine) (fs : FS) :
    applyEffects (applyEffects fs (build_metadata w cfg lines).1)
        (build_metadata w cfg lines).1 =
      applyEffects fs (build_metadata w cfg lines).1 :=
  applyEffects_idem _ _

/-- C10: when `pyproject.toml` exists at the checkout root but carries no
`project` table (or an empty one), the entry prints nothing — in
particular no warning — and the written record is exactly the record of
the file-absent case, every project field at its default. -/
theorem C10_empty_project_table_defaults_without_warning (w : World)
    (cfg : Config) (e : Entry)
    (h : w (targetOf cfg e) = PyprojectFile.present none ∨
         w (targetOf cfg e) = PyprojectFile.present (some emptyProjectTable)) :
    prints (entryEffects w cfg e) = [] ∧
    libWrites (entryEffects w cfg e) =
      [(outFileOf cfg e, metadataOf e (projDataOf PyprojectFile.absent))] := by
  rcases h with h | h <;>
    exact ⟨by simp [entryEffects, h, prints, List.filterMap_cons],
           by rw [libWrites_entryEffects, h]; rfl⟩

/-- Witness for C10 at a concrete world whose `pyproject.toml` files
have no `project` table. -/
theorem C10_witness :
    prints (entryEffects exWorldEmptyProj defaultConfig exEntryNoRef) = [] ∧
    libWrites (entryEffects exWorldEmptyProj defaultConfig exEntryNoRef) =
      [(outFileOf defaultConfig exEntryNoRef,
        metadataOf exEntryNoRef (projDataOf PyprojectFile.absent))] :=
  C10_empty_project_table_defaults_without_warning exWorldEmptyProj
    defaultConfig exEntryNoRef (Or.inl rfl)
